import Mathlib

/-!
Shallow embedding of the ASA data-cleaning pipeline (`src/app.py`) and of its
aggregation layer, together with theorems that settle the specification claims.

Modelling conventions:
* pandas cell values are modelled by `RawVal` (string / number / missing);
  numbers are `Rat` (Python floats are modelled exactly, no rounding);
* `pd.to_datetime(·, errors='coerce')` is modelled for ISO `YYYY-MM-DD`
  strings (the shapes exercised by the claims); every other value coerces to
  "NaT" (`none`);
* `pd.to_numeric(·, errors='coerce')` is modelled by a decimal-literal parser
  (optional sign, digits, at most one decimal point);
* a CSV/Excel parse with `header=h` is modelled as: physical row `h` becomes
  the column labels, the following physical rows become the body
  (`on_bad_lines='skip'` line dropping is not modelled: rows are taken at
  equal width, missing cells read as missing);
* `Series.sort_values(ascending=False)` is modelled, per pandas `nargsort`,
  as a stable ascending argsort whose permutation is then reversed.
-/

namespace Asa

/-- A raw cell value: a string, an (exact) number, or a missing value. -/
inductive RawVal where
  | str : String → RawVal
  | num : Rat → RawVal
  | null : RawVal
deriving DecidableEq

/-- Python `astype(str)` rendering of a cell, as used when joining a row for the
header scan (`" ".join(row.astype(str).values)`). -/
def RawVal.pyStr : RawVal → String
  | .str s => s
  | .num q => toString q
  | .null => "nan"

/-- Test whether `pat` is a leading block of `text` (character lists). -/
def charsLead : List Char → List Char → Bool
  | [], _ => true
  | _ :: _, [] => false
  | p :: ps, t :: ts => p = t && charsLead ps ts

/-- Test whether `text` has `pat` as a contiguous block somewhere (character lists). -/
def charsContain (pat : List Char) : List Char → Bool
  | [] => charsLead pat []
  | c :: ts => charsLead pat (c :: ts) || charsContain pat ts

/-- Python's `pat in s` substring test. -/
def strContains (s pat : String) : Bool :=
  charsContain pat.toList s.toList

/-- Split a character list at every character from `delims`, keeping empty
segments, as `re.split` does; the result is always non-empty. -/
def splitCharsAux (delims : List Char) : List Char → List Char → List (List Char)
  | [], acc => [acc.reverse]
  | c :: rest, acc =>
    if c ∈ delims then acc.reverse :: splitCharsAux delims rest []
    else splitCharsAux delims rest (c :: acc)

/-- Split a string on a set of single-character delimiters (`re.split`). -/
def splitChars (delims : List Char) (s : String) : List String :=
  (splitCharsAux delims s.toList []).map (fun cs => String.mk cs)

/-- Python's `s.replace(c, '')` for a single-character pattern: removes every
occurrence of `c`. -/
def replaceChar (s : String) (c : Char) : String :=
  String.mk (s.toList.filter (fun a => a ≠ c))

/-- Embedding of `clean_num` from `src/app.py`: on a string, strip `$`, `¥`, `,` and the
space character by four chained `str.replace(·, '')` calls; any other value
passes through unchanged. -/
def clean_num : RawVal → RawVal
  | .str x => .str (replaceChar (replaceChar (replaceChar (replaceChar x '$') '¥') ',') ' ')
  | v => v

/-- Digits-only string to a natural number (`none` on empty or non-digit). -/
def digitsToNat : List Char → Option Nat
  | [] => none
  | cs =>
    if cs.all (fun c => c.isDigit) then
      some (cs.foldl (fun n c => 10 * n + (c.toNat - '0'.toNat)) 0)
    else none

/-- Decimal-literal parser modelling `pd.to_numeric(·, errors='coerce')` on a
string: optional sign, then digits with at most one decimal point and at
least one digit overall. -/
def parseDec (s : String) : Option Rat :=
  let cs := s.toList
  let signed : Int × List Char :=
    match cs with
    | '-' :: rest => (-1, rest)
    | '+' :: rest => (1, rest)
    | _ => (1, cs)
  let body := signed.2
  match splitCharsAux ['.'] body [] with
  | [intPart] =>
    (digitsToNat intPart).map (fun n => (signed.1 * n : Int))
  | [intPart, fracPart] =>
    if intPart.isEmpty && fracPart.isEmpty then none
    else if (intPart ++ fracPart).all (fun c => c.isDigit) then
      let ip := (digitsToNat intPart).getD 0
      let fp := (digitsToNat fracPart).getD 0
      some (signed.1 * ((ip : Rat) + (fp : Rat) / ((10 : Rat) ^ fracPart.length)))
    else none
  | _ => none

/-- Model of `pd.to_numeric(·, errors='coerce')` on one cell: numbers pass through,
strings are parsed as decimal literals, anything else coerces to NaN. -/
def toNumericOpt : RawVal → Option Rat
  | .str s => parseDec s
  | .num q => some q
  | .null => none

/-- One cell of `df[col].apply(clean_num).apply(pd.to_numeric,
errors='coerce').fillna(0)` (lines 159-160 of `src/app.py`). -/
def cleanedValue (v : RawVal) : Rat :=
  (toNumericOpt (clean_num v)).getD 0

/-- The strip step as the specification words it: remove every occurrence of
the characters `$`, `¥`, `,` and space in one pass. -/
def specStrip (s : String) : String :=
  String.mk (s.toList.filter (fun c => c ∉ ['$', '¥', ',', ' ']))

/-- The Numeric Normalizer as the specification words it: strip the four
artifact characters, parse the remainder as a decimal number, default to 0;
already-numeric input passes through, missing input becomes 0. -/
def specNormalize : RawVal → Rat
  | .str s => (parseDec (specStrip s)).getD 0
  | .num q => q
  | .null => 0

/-- Python slicing `s[:n]`: the first `n` characters. -/
def takeChars (s : String) (n : Nat) : String :=
  String.mk (s.toList.take n)

/-- Python's `str.upper()` (ASCII model, matching the inputs in scope). -/
def upperStr (s : String) : String :=
  String.mk (s.toList.map Char.toUpper)

/-- Embedding of `extract_country` from `src/app.py` (lines 162-167): non-strings yield
"Unknown"; otherwise split on `_`, space and `-`; a 2-character first segment
is returned uppercased, else the first 2 characters of the whole name,
uppercased. -/
def extract_country : RawVal → String
  | .str name =>
    let parts := splitChars ['_', ' ', '-'] name
    if parts ≠ [] ∧ (parts.headD "").length = 2 then upperStr (parts.headD "")
    else upperStr (takeChars name 2)
  | _ => "Unknown"

/-- A calendar date as year/month/day fields. -/
structure Date where
  y : Nat
  m : Nat
  d : Nat
deriving DecidableEq

/-- Gregorian leap year. -/
def leapYear (y : Nat) : Bool :=
  (y % 4 = 0 && y % 100 ≠ 0) || y % 400 = 0

/-- Days in a month of the Gregorian calendar. -/
def daysInMonth (y m : Nat) : Nat :=
  if m = 2 then (if leapYear y then 29 else 28)
  else if m ∈ [4, 6, 9, 11] then 30
  else 31

/-- The date fields form a valid calendar date. -/
def isValidDate (dt : Date) : Bool :=
  1 ≤ dt.m && dt.m ≤ 12 && 1 ≤ dt.d && dt.d ≤ daysInMonth dt.y dt.m

/-- Model of `pd.to_datetime(·, errors='coerce')` on one cell, modelled for ISO
`YYYY-MM-DD` strings: any other shape coerces to NaT (`none`). -/
def parseDate : RawVal → Option Date
  | .str s =>
    match (splitChars ['-'] s).map (fun p => digitsToNat p.toList) with
    | [some y, some m, some d] =>
      if isValidDate ⟨y, m, d⟩ then some ⟨y, m, d⟩ else none
    | _ => none
  | _ => none

/-- A parsed table: the physical row used as column labels, and the body rows
that follow it. -/
structure Parsed where
  header : List RawVal
  body : List (List RawVal)
deriving DecidableEq

/-- Parse with `header=h` (pandas convention): physical row `h` supplies the
column labels, the rows after it form the body. -/
def parseAt (raws : List (List RawVal)) (h : Nat) : Parsed :=
  ⟨raws.getD h [], raws.drop (h + 1)⟩

/-- The marker test of the header scan (line 105 of `src/app.py`), applied to
`" ".join(row.astype(str).values)`. -/
def markerRow (cells : List RawVal) : Bool :=
  let rowStr := " ".intercalate (cells.map RawVal.pyStr)
  strContains rowStr "广告" || strContains rowStr "Campaign" ||
    strContains rowStr "日期" || strContains rowStr "Date"

/-- Scan loop over indexed body rows: first marker row wins. -/
def findHeaderIdxAux : List (List RawVal) → Int → Int
  | [], _ => -1
  | r :: rest, i => if markerRow r then i else findHeaderIdxAux rest (i + 1)

/-- The header scan of lines 102-107 of `src/app.py`: walk the first 20 body
rows of the initially-parsed table; return the index of the first row whose
joined string rendering contains a marker keyword, or the sentinel -1. -/
def findHeaderIdx (body : List (List RawVal)) : Int :=
  findHeaderIdxAux (body.take 20) 0

/-- Lines 88-118 of `src/app.py`: initial parse with the first physical row
as header; if the scan finds a marker at body index `idx > 0`, re-parse with
`header = idx + 1`, i.e. physical row `idx + 1` becomes the label row. -/
def locateParse (raws : List (List RawVal)) : Parsed :=
  let p0 := parseAt raws 0
  let idx := findHeaderIdx p0.body
  if 0 < idx then parseAt raws (idx.toNat + 1) else p0

/-- One classification rule: keyword list, blacklist, canonical column name. -/
structure RoleSpec where
  kws : List String
  bl : List String
  canon : String
deriving DecidableEq

/-- The Date rule of line 134 of `src/app.py`. -/
def dateSpec : RoleSpec := ⟨["日期", "Date", "Day"], [], "Date"⟩

/-- The Campaign-Name rule of line 135 of `src/app.py`. -/
def campSpec : RoleSpec :=
  ⟨["广告名称", "Campaign Name", "Campaign", "广告计划"], [], "Campaign Name"⟩

/-- The Installs rule of line 136 of `src/app.py`. -/
def installSpec : RoleSpec :=
  ⟨["下载量 (经点击)", "Installs", "Downloads", "安装", "下载"],
   ["率", "Rate", "转化", "Cost", "CPI"], "Installs"⟩

/-- The Spend rule of line 137 of `src/app.py`. -/
def spendSpec : RoleSpec :=
  ⟨["花费", "Spend", "Cost"],
   ["每日", "Budget", "avg", "Local", "Avg", "CPM", "CPT", "CPA"], "Spend"⟩

/-- The four rules, in the order the code resolves them and inserts them into
`col_map`. -/
def roles : List RoleSpec := [dateSpec, campSpec, installSpec, spendSpec]

/-- A label satisfies a rule: contains some keyword and no blacklist word. -/
def matchesRule (rs : RoleSpec) (col : String) : Bool :=
  rs.kws.any (fun k => strContains col k) && !(rs.bl.any (fun b => strContains col b))

/-- The candidate labels of a rule, in column order (the filter loop of
`find_best_column`). -/
def candidatesOf (rs : RoleSpec) (columns : List String) : List String :=
  columns.filter (fun col => matchesRule rs col)

/-- Left fold selecting the shortest candidate, keeping the earliest on ties:
models Python's stable `candidates.sort(key=len)` followed by
`candidates[0]`. -/
def shortestFirst (c : String) (rest : List String) : String :=
  rest.foldl (fun best x => if x.length < best.length then x else best) c

/-- Embedding of `find_best_column` from `src/app.py` (lines 122-132): filter by keywords
and blacklist; if no candidate, `None`; else the first candidate that exactly
equals a keyword, else the shortest candidate (earliest on ties). -/
def find_best_column (columns keywords : List String) (blacklist : List String) : Option String :=
  let candidates := columns.filter (fun col =>
    (keywords.any (fun k => strContains col k)) &&
      !(blacklist.any (fun b => strContains col b)))
  match candidates with
  | [] => none
  | c :: rest =>
    match candidates.find? (fun col => keywords.contains col) with
    | some exact => some exact
    | none => some (shortestFirst c rest)

/-- The rule's selected column. -/
def bestFor (rs : RoleSpec) (columns : List String) : Option String :=
  find_best_column columns rs.kws rs.bl

/-- Embedding of `col_map` of lines 139-143 of `src/app.py`, as the dict's insertion
sequence: one `(source label, canonical name)` entry per resolved role, in
the order Date, Campaign Name, Installs, Spend. -/
def col_map (columns : List String) : List (String × String) :=
  roles.filterMap (fun rs => (bestFor rs columns).map (fun c => (c, rs.canon)))

/-- Python-dict lookup over the insertion sequence: a later insertion with
the same key overwrites an earlier one, so the lookup prefers later
entries. -/
def lookupLast (m : List (String × String)) (k : String) : Option String :=
  match m with
  | [] => none
  | e :: rest =>
    match lookupLast rest k with
    | some v => some v
    | none => if e.1 = k then some e.2 else none

/-- Effect of `df.rename(columns=col_map)` on one label: the dict's final value for the
label, or the label itself when unmapped. -/
def renameLabel (m : List (String × String)) (l : String) : String :=
  (lookupLast m l).getD l

/-- A loaded table, column-major: each column is a label with its cells. -/
structure DF where
  cols : List (String × List RawVal)
deriving DecidableEq

/-- Python's `str.strip()`: drop leading and trailing whitespace. -/
def trimChars (s : String) : String :=
  String.mk (((s.toList.dropWhile Char.isWhitespace).reverse.dropWhile Char.isWhitespace).reverse)

/-- Build the column-major table from a parse, applying
`df.columns.str.strip()` (line 120 of `src/app.py`) to the labels. -/
def mkDF (p : Parsed) : DF :=
  ⟨(List.range p.header.length).map (fun i =>
    (trimChars (p.header.getD i .null).pyStr, p.body.map (fun row => row.getD i .null)))⟩

/-- Recursive worker for duplicate-column dropping: `seen` holds the labels
already kept. -/
def dedupColsAux (seen : List String) : List (String × List RawVal) → List (String × List RawVal)
  | [] => []
  | c :: rest =>
    if c.1 ∈ seen then dedupColsAux seen rest
    else c :: dedupColsAux (c.1 :: seen) rest

/-- Embedding of `df.loc[:, ~df.columns.duplicated()]` (line 146 of `src/app.py`): keep
only the first column with each label. -/
def dedupCols (l : List (String × List RawVal)) : List (String × List RawVal) :=
  dedupColsAux [] l

/-- Rename the labels then drop duplicate columns (lines 145-146 of
`src/app.py`). -/
def classify (df : DF) : DF :=
  ⟨dedupCols (df.cols.map (fun c => (renameLabel (col_map (df.cols.map (·.1))) c.1, c.2)))⟩

/-- The required canonical columns (line 148 of `src/app.py`). -/
def requiredCols : List String := ["Date", "Campaign Name", "Installs", "Spend"]

/-- Embedding of `any(c not in df.columns for c in required)` (line 149). -/
def missingRequired (df : DF) : Bool :=
  requiredCols.any (fun c => !(df.cols.any (fun e => e.1 = c)))

/-- Column selection `df[name]`: the cells of the first column so labelled
(empty when absent). -/
def dfCol (df : DF) (name : String) : List RawVal :=
  ((df.cols.find? (fun c => c.1 = name)).map (·.2)).getD []

/-- One record of the canonical table. -/
structure Rec where
  date : Date
  camp : String
  installs : Rat
  spend : Rat
  country : String
deriving DecidableEq

/-- Lines 151-169 of `src/app.py` on the classified table: parse the Date
column with coercion and drop the rows whose date fails to parse; clean the
Installs and Spend cells; derive Country from the raw Campaign Name cell. -/
def buildRecs (df : DF) : List Rec :=
  let dv := dfCol df "Date"
  let cv := dfCol df "Campaign Name"
  let iv := dfCol df "Installs"
  let sv := dfCol df "Spend"
  (List.range dv.length).filterMap (fun i =>
    (parseDate (dv.getD i .null)).map (fun dt =>
      { date := dt
        camp := (cv.getD i .null).pyStr
        installs := cleanedValue (iv.getD i .null)
        spend := cleanedValue (sv.getD i .null)
        country := extract_country (cv.getD i .null) }))

/-- The outcome of the raw ingestion step: either the physical rows of the
file, or a failed parse (no encoding and no spreadsheet reader succeeded). -/
inductive ParseResult where
  | ok : List (List RawVal) → ParseResult
  | fail : ParseResult
deriving DecidableEq

/-- Embedding of `load_and_clean_data` from `src/app.py` (lines 87-172): an unreadable
file yields `None`; otherwise locate the header, strip labels, classify and
rename columns, drop duplicate columns, fail with `None` when a required
canonical column is absent, and finally build the canonical records. -/
def load_and_clean_data : ParseResult → Option (List Rec)
  | .fail => none
  | .ok raws =>
    let df := classify (mkDF (locateParse raws))
    if missingRequired df then none else some (buildRecs df)

/-- Python `int()` of a float: truncation toward zero. -/
def truncRat (q : Rat) : Int :=
  if q < 0 then -((-q).floor) else q.floor

/-- The date-filtered installs sum of `get_daily_stats`. -/
def totalInstallsAt (data : List Rec) (target : Date) : Rat :=
  ((data.filter (fun r => r.date = target)).map (fun r => r.installs)).sum

/-- The date-filtered spend sum of `get_daily_stats`. -/
def totalSpendAt (data : List Rec) (target : Date) : Rat :=
  ((data.filter (fun r => r.date = target)).map (fun r => r.spend)).sum

/-- Embedding of `get_daily_stats` from `src/app.py` (lines 193-198): filter to the exact
date, sum installs and spend, and divide spend by installs only when the
installs sum is positive, else report 0. -/
def get_daily_stats (data : List Rec) (target : Date) : Int × Rat × Rat :=
  let ti := totalInstallsAt data target
  let ts := totalSpendAt data target
  let cpi := if 0 < ti then ts / ti else 0
  (truncRat ti, ts, cpi)

/-- The campaign names appearing on a date, in row order (the group keys
before sorting). -/
def namesAt (data : List Rec) (d : Date) : List String :=
  (data.filter (fun r => r.date = d)).map (fun r => r.camp)

/-- Per-campaign installs sum within one date
(`groupby('Campaign Name')[['Installs','Spend']].sum()`). -/
def installsFor (data : List Rec) (d : Date) (n : String) : Rat :=
  ((data.filter (fun r => r.date = d && r.camp = n)).map (fun r => r.installs)).sum

/-- Per-campaign spend sum within one date. -/
def spendFor (data : List Rec) (d : Date) (n : String) : Rat :=
  ((data.filter (fun r => r.date = d && r.camp = n)).map (fun r => r.spend)).sum

/-- Code-point lexicographic order on strings (Python's string comparison),
as the order on their character lists. -/
def strKeyLe (a b : String) : Prop := a.toList ≤ b.toList

instance : DecidableRel strKeyLe :=
  fun a b => inferInstanceAs (Decidable (a.toList ≤ b.toList))

instance : IsTotal String strKeyLe := ⟨fun a b => le_total a.toList b.toList⟩

instance : IsTrans String strKeyLe := ⟨fun _ _ _ h1 h2 => le_trans h1 h2⟩

instance : IsAntisymm String strKeyLe :=
  ⟨fun a b h1 h2 => by
    obtain ⟨da⟩ := a
    obtain ⟨db⟩ := b
    exact congrArg String.mk (le_antisymm h1 h2)⟩

/-- The key column of the outer merge of the two grouped frames: `groupby`
sorts its keys and `merge(..., how='outer')` sorts the union of keys
lexicographically, so the merged frame lists the distinct campaign names of
the two dates in ascending order. -/
def mergedNames (data : List Rec) (da db : Date) : List String :=
  ((namesAt data da ++ namesAt data db).dedup).insertionSort strKeyLe

/-- One row of the merged comparison frame `m` (lines 224-226 of
`src/app.py`), after `fillna(0)` and the `Diff` / `CPI_Now` columns. -/
structure VRow where
  camp : String
  installsNow : Rat
  installsPrev : Rat
  spendNow : Rat
  spendPrev : Rat
  diff : Rat
  cpiNow : Rat
deriving DecidableEq

/-- Build the merged row of one campaign: absent sides fill with 0 (the
group sums are 0 when the campaign is absent from a date), `Diff` is the
installs difference and `CPI_Now` the zero-guarded ratio. -/
def mkVRow (data : List Rec) (dnow dprev : Date) (n : String) : VRow :=
  let iN := installsFor data dnow n
  let iP := installsFor data dprev n
  let sN := spendFor data dnow n
  let sP := spendFor data dprev n
  { camp := n, installsNow := iN, installsPrev := iP, spendNow := sN, spendPrev := sP
    diff := iN - iP
    cpiNow := if 0 < iN then sN / iN else 0 }

/-- The merged comparison frame `m`, in its pre-sort row order. -/
def varianceRows (data : List Rec) (dnow dprev : Date) : List VRow :=
  (mergedNames data dnow dprev).map (mkVRow data dnow dprev)

/-- The sort key `m['Diff'].abs()`. -/
def absDiff (r : VRow) : Rat := |r.diff|

/-- Embedding of `m.reindex(m['Diff'].abs().sort_values(ascending=False).index)` (line 228
of `src/app.py`): pandas produces the descending order by reversing a stable
ascending argsort of the key column. -/
def sortRowsDesc (l : List VRow) : List VRow :=
  (l.insertionSort (fun a b => absDiff a ≤ absDiff b)).reverse

/-- The per-campaign variance table of lines 221-228 of `src/app.py`:
group each date by campaign, outer-merge with zero fill, compute `Diff` and
`CPI_Now`, and order by `|Diff|` descending (the caller then truncates to the
top 10). -/
def campaign_variance (data : List Rec) (dnow dprev : Date) : List VRow :=
  sortRowsDesc (varianceRows data dnow dprev)

/-- Exchanging the roles of the two dates on a comparison row: the `_Now` and
`_Prev` fields swap, `Diff` negates, and `CPI_Now` is recomputed from the
side that is now current. -/
def swapVRow (r : VRow) : VRow :=
  { camp := r.camp, installsNow := r.installsPrev, installsPrev := r.installsNow
    spendNow := r.spendPrev, spendPrev := r.spendNow
    diff := -r.diff
    cpiNow := if 0 < r.installsPrev then r.spendPrev / r.installsPrev else 0 }

/-! ### Concrete tables used by the claim theorems -/

/-- A file with three metadata rows, then the real header, then data: the
scenario of the Header Locator claim. -/
def exHeaderRaws : List (List RawVal) :=
  [[.str "Report", .str "x", .str "", .str ""],
   [.str "meta2", .str "", .str "", .str ""],
   [.str "meta3", .str "", .str "", .str ""],
   [.str "Date", .str "Campaign Name", .str "Installs", .str "Spend"],
   [.str "2024-01-01", .str "US_A", .str "100", .str "$50.00"]]

/-- A file whose "Day Campaign" column satisfies both the Date rule and the
Campaign-Name rule. -/
def exConflictRaws : List (List RawVal) :=
  [[.str "日期", .str "Day Campaign", .str "Installs", .str "Spend"],
   [.str "2024-01-01", .str "US_A", .str "1", .str "2"]]

/-- The column labels of `exConflictRaws`. -/
def exConflictCols : List String := ["日期", "Day Campaign", "Installs", "Spend"]

/-- A file with no Spend column at all. -/
def exNoSpendRaws : List (List RawVal) :=
  [[.str "Date", .str "Campaign Name", .str "Installs"],
   [.str "2024-01-01", .str "A", .str "1"]]

/-- A file whose one data row carries a negative Spend value. -/
def exNegSpendRaws : List (List RawVal) :=
  [[.str "Date", .str "Campaign Name", .str "Installs", .str "Spend"],
   [.str "2024-01-01", .str "US_A", .str "5", .str "-5"]]

/-- The record the pipeline produces from `exNegSpendRaws`. -/
def exNegRec : Rec :=
  { date := ⟨2024, 1, 1⟩, camp := "US_A", installs := 5, spend := -5, country := "US" }

/-- A two-row file with no marker keyword anywhere. -/
def exNoMarkerRaws : List (List RawVal) :=
  [[.str "x"], [.str "y"]]

/-- A canonical table whose two campaigns have install differences of equal
magnitude and opposite sign between the two dates. -/
def exTieTable : List Rec :=
  [{ date := ⟨2024, 1, 2⟩, camp := "A", installs := 10, spend := 0, country := "UN" },
   { date := ⟨2024, 1, 1⟩, camp := "B", installs := 10, spend := 0, country := "UN" }]

/-- The later reference date of `exTieTable`. -/
def exDateNow : Date := ⟨2024, 1, 2⟩

/-- The earlier reference date of `exTieTable`. -/
def exDatePrev : Date := ⟨2024, 1, 1⟩

/-! ### Helper lemmas -/

unseal Rat.mul Rat.inv Rat.add Rat.sub

/-- Unfolding `String.toList` over the constructor. -/
theorem toList_mk (l : List Char) : (String.mk l).toList = l := rfl

/-- The four chained single-character `replace` calls of `clean_num` remove
exactly the characters the specification lists, in one pass. -/
theorem stripChain_eq_specStrip (x : String) :
    replaceChar (replaceChar (replaceChar (replaceChar x '$') '¥') ',') ' ' = specStrip x := by
  simp only [replaceChar, specStrip, toList_mk]
  rw [List.filter_filter, List.filter_filter, List.filter_filter]
  refine congrArg String.mk (List.filter_congr ?_)
  intro a _
  by_cases h1 : a = '$' <;> by_cases h2 : a = '¥' <;> by_cases h3 : a = ',' <;>
    by_cases h4 : a = ' ' <;> simp [h1, h2, h3, h4]

/-- Lemma that `splitCharsAux` never returns the empty list. -/
theorem splitCharsAux_ne_nil (delims : List Char) :
    ∀ cs acc, splitCharsAux delims cs acc ≠ [] := by
  intro cs
  induction cs with
  | nil => intro acc; simp [splitCharsAux]
  | cons c rest ih =>
    intro acc
    simp only [splitCharsAux]
    split
    · simp
    · exact ih (c :: acc)

/-- Lemma that `splitChars` never returns the empty list (as `re.split` never does). -/
theorem splitChars_ne_nil (delims : List Char) (s : String) :
    splitChars delims s ≠ [] := by
  simp only [splitChars, ne_eq, List.map_eq_nil_iff]
  exact splitCharsAux_ne_nil delims s.toList []

/-! ### Claim C7 -/

/-- Claim C7 (confirmed): the numeric-cleaning pipeline of lines 154-160 of
`src/app.py` — `clean_num`, then `pd.to_numeric(errors='coerce')`, then
`fillna(0)` — equals the specification's Numeric Normalizer on every raw
value: strip every occurrence of `$`, `¥`, `,` and spaces, parse the
remainder as a decimal number, and turn anything that still fails to parse
(missing values included) into 0, never into a missing value.  Concrete
instances: `"$1,234.50"` cleans to `1234.5`, `"¥2, 5"` to `25`, an
unparsable string and a missing value both clean to `0`. -/
theorem C7_normalizer :
    (∀ v, cleanedValue v = specNormalize v) ∧
      cleanedValue (.str "$1,234.50") = 2469 / 2 ∧
      cleanedValue (.str "¥2, 5") = 25 ∧
      cleanedValue (.str "abc") = 0 ∧
      cleanedValue .null = 0 := by
  refine ⟨?_, by decide, by decide, by decide, rfl⟩
  intro v
  cases v with
  | str s =>
    simp only [cleanedValue, clean_num, toNumericOpt, specNormalize, stripChain_eq_specStrip]
  | num q => rfl
  | null => rfl

/-! ### Claim C8 -/

/-- Claim C8 (confirmed): the Numeric Normalizer is idempotent — feeding its
numeric output back through the full cleaning pipeline returns the output
unchanged, because `clean_num` passes numbers through and `pd.to_numeric`
leaves numbers as they are. -/
theorem C8_idempotent (v : RawVal) :
    cleanedValue (.num (cleanedValue v)) = cleanedValue v := rfl

/-! ### Claim C9 -/

/-- Claim C9 (confirmed): `extract_country` (lines 162-167 of `src/app.py`)
returns the uppercased first split segment when that segment has exactly 2
characters, else the first 2 characters of the whole name uppercased, and
"Unknown" on every non-string input; in particular it maps `"US_Search"` to
`"US"`, `"uk-brand"` to `"UK"`, `"BrandCampaign"` to `"BR"`, and the number
`123` to `"Unknown"`. -/
theorem C9_extract_country :
    (∀ s, ((splitChars ['_', ' ', '-'] s).headD "").length = 2 →
      extract_country (.str s) = upperStr ((splitChars ['_', ' ', '-'] s).headD "")) ∧
    (∀ s, ((splitChars ['_', ' ', '-'] s).headD "").length ≠ 2 →
      extract_country (.str s) = upperStr (takeChars s 2)) ∧
    (∀ q, extract_country (.num q) = "Unknown") ∧
    extract_country .null = "Unknown" ∧
    extract_country (.str "US_Search") = "US" ∧
    extract_country (.str "uk-brand") = "UK" ∧
    extract_country (.str "BrandCampaign") = "BR" ∧
    extract_country (.num 123) = "Unknown" := by
  refine ⟨?_, ?_, fun q => rfl, rfl, by decide, by decide, by decide, rfl⟩
  · intro s h
    simp only [extract_country]
    rw [if_pos ⟨splitChars_ne_nil _ s, h⟩]
  · intro s h
    simp only [extract_country]
    rw [if_neg (fun hc => h hc.2)]

/-- Witness for C9: the hypotheses of its two conditional parts are
discharged at the concrete names `"US_Search"` (2-character first segment)
and `"BrandCampaign"` (fallback to the first two characters). -/
theorem C9_witness :
    extract_country (.str "US_Search") =
        upperStr ((splitChars ['_', ' ', '-'] "US_Search").headD "") ∧
      extract_country (.str "BrandCampaign") = upperStr (takeChars "BrandCampaign" 2) :=
  ⟨C9_extract_country.1 "US_Search" (by decide),
   C9_extract_country.2.1 "BrandCampaign" (by decide)⟩

/-! ### Claim C10 -/

/-- Claim C10 (confirmed): on a string shorter than 2 characters the Country
Extractor falls through to the `name[:2].upper()` branch — no split segment
of such a string can have length 2 — and `name[:2]` is the whole name, so the
result is the input uppercased: the empty string maps to the empty string and
a 1-character name to that character uppercased, never "Unknown" and never a
2-letter code. -/
theorem C10_short_names (s : String) (h : s.length < 2) :
    extract_country (.str s) = upperStr s := by
  obtain ⟨l⟩ := s
  match l, h with
  | [], _ =>
    decide
  | [c], _ =>
    simp only [extract_country, splitChars, splitCharsAux]
    by_cases hc : c ∈ ['_', ' ', '-']
    · rw [if_pos hc]
      simp [takeChars, upperStr]
    · rw [if_neg hc]
      simp [takeChars, upperStr]
  | c1 :: c2 :: rest, h =>
    simp only [String.length, List.length_cons] at h
    omega

/-- Witness for C10: applied to the 1-character name `"a"` and to the empty
name. -/
theorem C10_witness :
    extract_country (.str "a") = upperStr "a" ∧ extract_country (.str "") = upperStr "" :=
  ⟨C10_short_names "a" (by decide), C10_short_names "" (by decide)⟩

/-! ### Claim C5 -/

/-- Claim C5 (confirmed): `get_daily_stats` (lines 193-198 of `src/app.py`)
returns `(0, 0, 0)` on a date with no matching rows, and more generally
reports a CPI of 0 whenever the installs sum is not positive — the division
by the installs sum is guarded by `if total_installs > 0`, so it never
divides by zero. -/
theorem C5_daily_totals :
    (∀ data d, data.filter (fun r => r.date = d) = [] →
      get_daily_stats data d = (0, 0, 0)) ∧
    (∀ data d, ¬(0 < totalInstallsAt data d) → (get_daily_stats data d).2.2 = 0) := by
  constructor
  · intro data d h
    simp [get_daily_stats, totalInstallsAt, totalSpendAt, truncRat, h]
    decide
  · intro data d h
    simp [get_daily_stats, h]

/-- Witness for C5: both parts applied to the empty canonical table. -/
theorem C5_witness :
    get_daily_stats [] ⟨2024, 1, 1⟩ = (0, 0, 0) ∧
      (get_daily_stats [] ⟨2024, 1, 1⟩).2.2 = 0 :=
  ⟨C5_daily_totals.1 [] ⟨2024, 1, 1⟩ rfl,
   C5_daily_totals.2 [] ⟨2024, 1, 1⟩ (by norm_num [totalInstallsAt])⟩

/-! ### Claim C1 -/

/-- Claim C1 (corrected): on a file whose first 3 physical rows are
marker-free metadata and whose 4th physical row contains "Campaign Name",
the header scan returns 2, not the claimed 3 — the scan walks the body of
the initially-parsed table, which starts at the second physical row because
the first physical row was consumed as the provisional header — even though
the subsequent re-parse does treat the 4th physical row (index 3) as the
header line. -/
theorem C1_counterexample :
    findHeaderIdx (parseAt exHeaderRaws 0).body = 2 ∧
      findHeaderIdx (parseAt exHeaderRaws 0).body ≠ 3 ∧
      locateParse exHeaderRaws = parseAt exHeaderRaws 3 :=
  ⟨by decide, by decide, by decide⟩

/-- Claim C1 as amended: for the 3-metadata-row scenario the scan (which
runs over the body of the initial parse, one row past each physical row)
returns index 2, and the source is re-parsed with `header = 2 + 1 = 3`, so
the 4th physical row — the matched row itself — becomes the header line;
when no row in the 20-row window matches, the sentinel -1 is returned and
the originally-parsed table is used as-is. -/
theorem C1_amended :
    findHeaderIdx (parseAt exHeaderRaws 0).body = 2 ∧
      locateParse exHeaderRaws = parseAt exHeaderRaws 3 ∧
      (∀ raws, findHeaderIdx (parseAt raws 0).body = -1 →
        locateParse raws = parseAt raws 0) := by
  refine ⟨by decide, by decide, ?_⟩
  intro raws h
  simp [locateParse, h]

/-- Witness for C1: the no-match branch of the amended claim applied to a
concrete marker-free file. -/
theorem C1_witness : locateParse exNoMarkerRaws = parseAt exNoMarkerRaws 0 :=
  C1_amended.2.2 exNoMarkerRaws (by decide)

/-! ### Claim C4 -/

/-- A date produced by the coercing date parse is a valid calendar date. -/
theorem parseDate_valid (v : RawVal) (dt : Date) (h : parseDate v = some dt) :
    isValidDate dt = true := by
  cases v with
  | str s =>
    simp only [parseDate] at h
    split at h
    · rename_i y m d heq
      split at h
      · rename_i hvalid
        cases h
        exact hvalid
      · exact absurd h (by simp)
    · exact absurd h (by simp)
  | num q => exact absurd h (by simp [parseDate])
  | null => exact absurd h (by simp [parseDate])

/-- Claim C4 (corrected): the claimed non-negativity of installs and spend
fails — `fillna(0)` only replaces unparsable values, so a negative source
value such as `"-5"` survives cleaning and yields a record with
`spend = -5 < 0`. -/
theorem C4_counterexample :
    load_and_clean_data (.ok exNegSpendRaws) = some [exNegRec] ∧ exNegRec.spend < 0 :=
  ⟨by decide, by decide⟩

/-- Claim C4 as amended: every record of a successful load has a valid
(non-null) calendar date — rows whose date fails to parse are dropped, never
defaulted — and unparsable numeric values are coerced to 0 rather than the
row being rejected; the cleaned installs and spend values are however not
guaranteed to be ≥ 0: a negative source value is preserved. -/
theorem C4_amended :
    (∀ pr t, load_and_clean_data pr = some t → ∀ r ∈ t, isValidDate r.date = true) ∧
    (∀ v, toNumericOpt (clean_num v) = none → cleanedValue v = 0) := by
  constructor
  · intro pr t hload r hr
    cases pr with
    | fail => exact absurd hload (by simp [load_and_clean_data])
    | ok raws =>
      simp only [load_and_clean_data] at hload
      split at hload
      · exact absurd hload (by simp)
      · rw [Option.some.injEq] at hload
        subst hload
        simp only [buildRecs, List.mem_filterMap] at hr
        obtain ⟨i, -, hfi⟩ := hr
        rw [Option.map_eq_some'] at hfi
        obtain ⟨dt, hdt, hg⟩ := hfi
        rw [← hg]
        exact parseDate_valid _ dt hdt
  · intro v h
    rw [cleanedValue, h]
    rfl

/-- Witness for C4: the date-validity part applied to the record produced
from `exNegSpendRaws`, and the coerce-to-0 part applied to the unparsable
string `"abc"`. -/
theorem C4_witness :
    isValidDate exNegRec.date = true ∧ cleanedValue (.str "abc") = 0 :=
  ⟨C4_amended.1 (.ok exNegSpendRaws) [exNegRec] (by decide) exNegRec (by simp),
   C4_amended.2 (.str "abc") (by decide)⟩

/-! ### Claim C3 -/

/-- A successful dict lookup returns an inserted entry. -/
theorem lookupLast_mem (m : List (String × String)) (k v : String)
    (h : lookupLast m k = some v) : (k, v) ∈ m := by
  induction m with
  | nil => exact absurd h (by simp [lookupLast])
  | cons e rest ih =>
    rcases hrest : lookupLast rest k with _ | w
    · simp only [lookupLast, hrest] at h
      split at h
      · rename_i hk
        cases h
        obtain ⟨e1, e2⟩ := e
        simp only at hk
        subst hk
        exact List.mem_cons_self _ _
      · simp at h
    · simp only [lookupLast, hrest] at h
      cases h
      exact List.mem_cons_of_mem e (ih hrest)

/-- A rule with no candidate resolves to no column. -/
theorem bestFor_eq_none (rs : RoleSpec) (columns : List String)
    (h : candidatesOf rs columns = []) : bestFor rs columns = none := by
  have h2 : columns.filter (fun col =>
      (rs.kws.any fun k => strContains col k) && !(rs.bl.any fun b => strContains col b)) = [] := h
  simp only [bestFor, find_best_column, h2]

/-- Every `col_map` entry comes from a resolved role. -/
theorem mem_col_map (columns : List String) (k v : String)
    (h : (k, v) ∈ col_map columns) :
    ∃ rs ∈ roles, bestFor rs columns = some k ∧ v = rs.canon := by
  simp only [col_map, List.mem_filterMap] at h
  obtain ⟨rs, hmem, hmap⟩ := h
  rw [Option.map_eq_some'] at hmap
  obtain ⟨c, hc, heq⟩ := hmap
  rw [Prod.mk.injEq] at heq
  exact ⟨rs, hmem, heq.1 ▸ hc, heq.2.symm⟩

/-- Duplicate-column dropping only keeps existing columns. -/
theorem mem_dedupColsAux (seen : List String) (l : List (String × List RawVal)) (c) :
    c ∈ dedupColsAux seen l → c ∈ l := by
  induction l generalizing seen with
  | nil => simp [dedupColsAux]
  | cons e rest ih =>
    intro h
    simp only [dedupColsAux] at h
    split at h
    · exact List.mem_cons_of_mem e (ih _ h)
    · cases h with
      | head => exact List.mem_cons_self _ _
      | tail _ h2 => exact List.mem_cons_of_mem e (ih _ h2)

/-- Enumeration of the four classification rules. -/
theorem roles_canon_cases (rs : RoleSpec) (h : rs ∈ roles) :
    rs = dateSpec ∨ rs = campSpec ∨ rs = installSpec ∨ rs = spendSpec := by
  simpa [roles] using h

/-- The four canonical names identify their rules. -/
theorem roles_canon_inj (rs rs' : RoleSpec) (h : rs ∈ roles) (h' : rs' ∈ roles)
    (hc : rs.canon = rs'.canon) : rs = rs' := by
  rcases roles_canon_cases rs h with rfl | rfl | rfl | rfl <;>
    rcases roles_canon_cases rs' h' with rfl | rfl | rfl | rfl <;> revert hc <;> decide

/-- Every rule's canonical name is a required column. -/
theorem roles_canon_required (rs : RoleSpec) (h : rs ∈ roles) : rs.canon ∈ requiredCols := by
  rcases roles_canon_cases rs h with rfl | rfl | rfl | rfl <;> decide

/-- Every rule's canonical name satisfies the rule itself. -/
theorem canon_matches (rs : RoleSpec) (h : rs ∈ roles) : matchesRule rs rs.canon = true := by
  rcases roles_canon_cases rs h with rfl | rfl | rfl | rfl <;> decide

/-- Claim C3 (corrected): the load does fail when a required role has zero
candidates, but not with a structured `MissingColumns` outcome — it returns
the bare `None` sentinel (line 149 of `src/app.py`), the very same value the
loader returns for an unreadable file, so the two failures are
indistinguishable to the caller and no role names are reported. -/
theorem C3_counterexample :
    load_and_clean_data (.ok exNoSpendRaws) = load_and_clean_data .fail ∧
      load_and_clean_data (.ok exNoSpendRaws) = none :=
  ⟨by decide, by decide⟩

/-- Claim C3 as amended: whenever any of the four required roles has zero
candidate columns after keyword/blacklist filtering, the load fails by
returning `None` — the same unstructured sentinel used for an unreadable
file, with no role names attached — and the failure is returned to the
caller, never raised as an uncaught fault. -/
theorem C3_amended (raws : List (List RawVal)) (rs : RoleSpec) (hrs : rs ∈ roles)
    (h : candidatesOf rs ((mkDF (locateParse raws)).cols.map (fun c => c.1)) = []) :
    load_and_clean_data (.ok raws) = none ∧ load_and_clean_data .fail = none := by
  refine ⟨?_, rfl⟩
  have hmiss : missingRequired (classify (mkDF (locateParse raws))) = true := by
    rw [missingRequired, List.any_eq_true]
    refine ⟨rs.canon, by simpa using roles_canon_required rs hrs, ?_⟩
    rw [Bool.not_eq_eq_eq_not, Bool.not_true, List.any_eq_false]
    intro e he
    rw [decide_eq_true_eq]
    intro hcanon
    have he2 := mem_dedupColsAux _ _ _ he
    rw [List.mem_map] at he2
    obtain ⟨c0, hc0, hec⟩ := he2
    rw [← hec] at hcanon
    simp only [renameLabel] at hcanon
    cases hlk : lookupLast (col_map ((mkDF (locateParse raws)).cols.map (fun c => c.1))) c0.1 with
    | some v =>
      rw [hlk, Option.getD_some] at hcanon
      subst hcanon
      obtain ⟨rs', hrs', hbest, hcanon'⟩ := mem_col_map _ _ _ (lookupLast_mem _ _ _ hlk)
      have hrr : rs' = rs := roles_canon_inj rs' rs hrs' hrs hcanon'.symm
      rw [hrr] at hbest
      rw [bestFor_eq_none rs _ h] at hbest
      exact absurd hbest (by simp)
    | none =>
      rw [hlk, Option.getD_none] at hcanon
      have hin : rs.canon ∈ (mkDF (locateParse raws)).cols.map (fun c => c.1) :=
        hcanon ▸ List.mem_map_of_mem (fun c => c.1) hc0
      have hmem2 : rs.canon ∈ candidatesOf rs ((mkDF (locateParse raws)).cols.map (fun c => c.1)) :=
        List.mem_filter.2 ⟨hin, canon_matches rs hrs⟩
      rw [h] at hmem2
      exact absurd hmem2 (by simp)
  simp [load_and_clean_data, hmiss]

/-- Witness for C3: applied to the Spend rule on a file whose columns are
only Date, Campaign Name and Installs. -/
theorem C3_witness :
    load_and_clean_data (.ok exNoSpendRaws) = none ∧ load_and_clean_data .fail = none :=
  C3_amended exNoSpendRaws spendSpec (by decide) (by decide)

/-! ### Claim C2 -/

/-- Claim C2 (corrected): first-applicable-role-wins fails on the code.  The
label "Day Campaign" satisfies both the Date rule (contains "Day") and the
Campaign-Name rule (contains "Campaign"), yet with columns `日期, Day
Campaign, Installs, Spend` it is assigned the role Campaign Name — not the
higher-priority Date, which selects the exact-match label `日期` — and the
load on such a file succeeds. -/
theorem C2_counterexample :
    matchesRule dateSpec "Day Campaign" = true ∧
      matchesRule campSpec "Day Campaign" = true ∧
      lookupLast (col_map exConflictCols) "Day Campaign" = some "Campaign Name" ∧
      "Campaign Name" ≠ "Date" ∧
      (load_and_clean_data (.ok exConflictRaws)).isSome = true :=
  ⟨by decide, by decide, by decide, by decide, by decide⟩

set_option maxHeartbeats 2000000 in
/-- Claim C2 as amended: each role independently selects its best-matching
column (exact keyword match first, then shortest candidate), and the
rename dict is built in the order Date, Campaign Name, Installs, Spend with
later insertions overwriting earlier ones — so a label selected by several
roles is assigned the LAST such role in that order, and a label matching a
role's keyword rules is assigned no role at all when the role selects a
different label. -/
theorem C2_amended (columns : List String) (col : String) :
    lookupLast (col_map columns) col =
      if bestFor spendSpec columns = some col then some "Spend"
      else if bestFor installSpec columns = some col then some "Installs"
      else if bestFor campSpec columns = some col then some "Campaign Name"
      else if bestFor dateSpec columns = some col then some "Date"
      else none := by
  have hDate : dateSpec.canon = "Date" := rfl
  have hCamp : campSpec.canon = "Campaign Name" := rfl
  have hInst : installSpec.canon = "Installs" := rfl
  have hSpend : spendSpec.canon = "Spend" := rfl
  rcases hd : bestFor dateSpec columns with _ | cd <;>
    rcases hc : bestFor campSpec columns with _ | cc <;>
      rcases hi : bestFor installSpec columns with _ | ci <;>
        rcases hs : bestFor spendSpec columns with _ | cs <;>
          simp only [col_map, roles, List.filterMap_cons, List.filterMap_nil, hd, hc, hi, hs,
            Option.map_none', Option.map_some', hDate, hCamp, hInst, hSpend, lookupLast] <;>
          split_ifs <;> simp_all

/-! ### Claim C6 -/

/-- The merged key column does not depend on which date is "now": both
groupings contribute the same set of campaign names and the union is listed
in sorted order. -/
theorem mergedNames_comm (data : List Rec) (da db : Date) :
    mergedNames data da db = mergedNames data db da := by
  apply List.eq_of_perm_of_sorted (r := strKeyLe)
  · exact (List.perm_insertionSort _ _).trans
      (((List.perm_append_comm).dedup).trans (List.perm_insertionSort _ _).symm)
  · exact List.sorted_insertionSort _ _
  · exact List.sorted_insertionSort _ _

/-- Building a merged row with the dates exchanged is exactly the swap of
the row built with the original dates. -/
theorem mkVRow_swap (data : List Rec) (dn dp : Date) (n : String) :
    mkVRow data dp dn n = swapVRow (mkVRow data dn dp n) := by
  simp only [mkVRow, swapVRow, neg_sub]

/-- Swapping a row preserves the `|Diff|` sort key. -/
theorem absDiff_swap (r : VRow) : absDiff (swapVRow r) = absDiff r := by
  simp [absDiff, swapVRow, abs_neg]

/-- The pre-sort merged frame with the dates exchanged is the row-wise swap
of the original merged frame, in the same row order. -/
theorem varianceRows_swap (data : List Rec) (dn dp : Date) :
    varianceRows data dp dn = (varianceRows data dn dp).map swapVRow := by
  rw [varianceRows, varianceRows, mergedNames_comm data dp dn, List.map_map]
  exact congrArg (fun f => List.map f (mergedNames data dn dp))
    (funext (mkVRow_swap data dn dp))

/-- The descending `|Diff|` sort commutes with the row-wise swap, because
the swap preserves every sort key and the sort permutation is a function of
the keys alone. -/
theorem sortRowsDesc_map_swap (l : List VRow) :
    sortRowsDesc (l.map swapVRow) = (sortRowsDesc l).map swapVRow := by
  have h := List.map_insertionSort (fun a b : VRow => absDiff a ≤ absDiff b)
    (fun a b : VRow => absDiff a ≤ absDiff b) swapVRow l
    (fun a _ b _ => by simp only [absDiff_swap])
  rw [sortRowsDesc, sortRowsDesc, ← h, List.map_reverse]

/-- Claim C6 (corrected): two campaigns with install differences of equal
magnitude and opposite sign are tied on `|Diff|`, and the sorted output
lists them in REVERSE original row order — pandas obtains the descending
order by reversing an ascending argsort — so the claimed
ties-broken-by-original-row-order (stable descending sort) is false. -/
theorem C6_counterexample :
    (varianceRows exTieTable exDateNow exDatePrev).map (fun r => r.camp) = ["A", "B"] ∧
      (campaign_variance exTieTable exDateNow exDatePrev).map (fun r => r.camp) = ["B", "A"] ∧
      (varianceRows exTieTable exDateNow exDatePrev).map absDiff = [10, 10] :=
  ⟨by decide, by decide, by decide⟩

/-- Claim C6 as amended: swapping `date_now` and `date_prev` in
`campaign_variance` negates every diff, swaps the `_Now` and `_Prev` fields
of every row (with `CPI_Now` recomputed from the newly-current side), and
leaves the `|Diff|`-descending row order identical; however ties in `|Diff|`
appear in REVERSE original row order — the descending order is a reversed
stable ascending sort, so an all-tied frame comes out exactly reversed. -/
theorem C6_amended :
    (∀ data dn dp, campaign_variance data dp dn =
      (campaign_variance data dn dp).map swapVRow) ∧
    (∀ data dn dp,
      (varianceRows data dn dp).Pairwise (fun a b => absDiff a = absDiff b) →
        campaign_variance data dn dp = (varianceRows data dn dp).reverse) := by
  constructor
  · intro data dn dp
    rw [campaign_variance, campaign_variance, varianceRows_swap data dn dp,
      sortRowsDesc_map_swap]
  · intro data dn dp hp
    rw [campaign_variance, sortRowsDesc]
    congr 1
    exact List.Sorted.insertionSort_eq (hp.imp (fun h => le_of_eq h))

/-- Witness for C6: the all-tied part applied to the concrete tied table,
whose variance output is its merged frame reversed. -/
theorem C6_witness :
    campaign_variance exTieTable exDateNow exDatePrev =
      (varianceRows exTieTable exDateNow exDatePrev).reverse :=
  C6_amended.2 exTieTable exDateNow exDatePrev (by decide)

end Asa
